import Mathlib

/-!
Small-step evaluator for booleans and naturals (package `arith`).

Shallow embedding of `src/arith/terms.go` and `src/arith/decorators.go`.

* `Term` is the closed sum of the seven struct types that implement the Go
  interface `Term` in `terms.go`.  A nil interface value and a `MultiStepTerm`
  used as a sub-term are outside the model.
* A Go result `(Term, error)` of a single step is either `(nil, err)` with
  `err != nil` or `(t, nil)` with `t` a term; it is modelled by
  `Except Error Term`.
* The driver `MultiStepTerm.Evaluate` can return the pair `(nil, nil)`, so its
  result is the pair `Option Term × Option Error` (`none` is Go's `nil`).  Its
  `for` loop has no bound; the model takes a fuel argument and answers `none`
  when the fuel does not suffice.
-/

/-- Go's `error` values: the sentinel `ErrCannotEvaluate` of `terms.go`, and any
other error (none is produced by the package itself). -/
inductive Error where
  | ErrCannotEvaluate
  | other (msg : String)
deriving DecidableEq, Repr

/-- The call `errors.Is(err, ErrCannotEvaluate)`. -/
def Error.isCannotEvaluate : Error → Bool
  | .ErrCannotEvaluate => true
  | .other _ => false

/-- The seven term structs of `terms.go`. -/
inductive Term where
  | True
  | False
  | Zero
  | If (Cond Then Else : Term)
  | Succ (Operand : Term)
  | Pred (Operand : Term)
  | IsZero (Operand : Term)
deriving DecidableEq, Repr

/-- The method `isNumeric` of every term struct. -/
def Term.isNumeric : Term → Bool
  | .True => false
  | .False => false
  | .Zero => true
  | .If _ _ _ => false
  | .Succ Operand => Operand.isNumeric
  | .Pred _ => false
  | .IsZero _ => false

/-- The method `isValue` of every term struct; `Succ.isValue` is
`s.isNumeric()`. -/
def Term.isValue : Term → Bool
  | .True => true
  | .False => true
  | .Zero => true
  | .If _ _ _ => false
  | .Succ Operand => (Term.Succ Operand).isNumeric
  | .Pred _ => false
  | .IsZero _ => false

/-- The method `Format` of every term struct (`fmt.Sprintf` with `%s` verbs). -/
def Term.Format : Term → String
  | .True => "true"
  | .False => "false"
  | .Zero => "0"
  | .If Cond Then Else =>
    "if " ++ Cond.Format ++ " then " ++ Then.Format ++ " else " ++ Else.Format
  | .Succ Operand => "succ " ++ Operand.Format
  | .Pred Operand => "pred " ++ Operand.Format
  | .IsZero Operand => "iszero " ++ Operand.Format

/-- The method `Evaluate` of every term struct: one reduction step.
`Except.error err` is the Go result `(nil, err)`, `Except.ok t` is `(t, nil)`. -/
def Term.Evaluate : Term → Except Error Term
  | .True => .error .ErrCannotEvaluate
  | .False => .error .ErrCannotEvaluate
  | .Zero => .error .ErrCannotEvaluate
  | .If Cond Then Else =>
    match Cond with
    | .True => .ok Then
    | .False => .ok Else
    | cond =>
      match cond.Evaluate with
      | .error err => .error err
      | .ok evaluated => .ok (.If evaluated Then Else)
  | .Succ Operand =>
    if (Term.Succ Operand).isValue then
      .ok (.Succ Operand)
    else
      match Operand.Evaluate with
      | .error err => .error err
      | .ok evaluated => .ok (.Succ evaluated)
  | .Pred Operand =>
    match Operand with
    | .Zero => .ok .Zero
    | .Succ inner =>
      if (Term.Succ inner).isNumeric then
        .ok inner
      else
        .error .ErrCannotEvaluate
    | operand =>
      match operand.Evaluate with
      | .error err => .error err
      | .ok evaluated => .ok (.Pred evaluated)
  | .IsZero Operand =>
    match Operand with
    | .Zero => .ok .True
    | .Succ inner =>
      if (Term.Succ inner).isNumeric then
        .ok .False
      else
        .error .ErrCannotEvaluate
    | operand =>
      match operand.Evaluate with
      | .error err => .error err
      | .ok evaluated => .ok (.IsZero evaluated)

/-- The struct `MultiStepTerm` of `decorators.go`. -/
structure MultiStepTerm where
  Origin : Term
deriving DecidableEq, Repr

/-- The `for` loop of `MultiStepTerm.Evaluate` followed by `return current, nil`.
The assignment `current, err = current.Evaluate()` also overwrites `current`, so
after a failing step `current` is nil: the `break` leads to the result
`(nil, nil)`.  The answer `none` means that the fuel ran out. -/
def MultiStepTerm.loop : Nat → Term → Option (Option Term × Option Error)
  | 0, _ => none
  | fuel + 1, current =>
    match current.Evaluate with
    | .ok next => MultiStepTerm.loop fuel next
    | .error err =>
      if err.isCannotEvaluate then
        some (none, none)
      else
        some (none, some err)

/-- The method `MultiStepTerm.Evaluate`, with fuel for its loop. -/
def MultiStepTerm.Evaluate (fuel : Nat) (m : MultiStepTerm) :
    Option (Option Term × Option Error) :=
  match m.Origin.Evaluate with
  | .error err => some (none, some err)
  | .ok current => MultiStepTerm.loop fuel current

/-- The method `MultiStepTerm.Format`. -/
def MultiStepTerm.Format (m : MultiStepTerm) : String := m.Origin.Format

/-- The method `MultiStepTerm.isValue`. -/
def MultiStepTerm.isValue (m : MultiStepTerm) : Bool := m.Origin.isValue

/-- The method `MultiStepTerm.isNumeric`. -/
def MultiStepTerm.isNumeric (m : MultiStepTerm) : Bool := m.Origin.isNumeric

/-- Types of the boolean and natural calculus used to state typing claims. -/
inductive Ty where
  | Bool
  | Nat
deriving DecidableEq, Repr

/-- Typing of the claims: `True, False : Bool`; `Zero : Nat`; `Succ x, Pred x : Nat`
when `x : Nat`; `IsZero x : Bool` when `x : Nat`; `If c a b : T` when `c : Bool`
and `a, b : T`.  The source has no type checker; this is the specification side. -/
def Term.typeOf : Term → Option Ty
  | .True => some .Bool
  | .False => some .Bool
  | .Zero => some .Nat
  | .If Cond Then Else =>
    match Cond.typeOf, Then.typeOf, Else.typeOf with
    | some .Bool, some a, some b => if a = b then some a else none
    | _, _, _ => none
  | .Succ Operand =>
    match Operand.typeOf with
    | some .Nat => some .Nat
    | _ => none
  | .Pred Operand =>
    match Operand.typeOf with
    | some .Nat => some .Nat
    | _ => none
  | .IsZero Operand =>
    match Operand.typeOf with
    | some .Nat => some .Bool
    | _ => none

/-- Node count of a term. -/
def Term.size : Term → Nat
  | .True => 1
  | .False => 1
  | .Zero => 1
  | .If Cond Then Else => 1 + Cond.size + Then.size + Else.size
  | .Succ Operand => 1 + Operand.size
  | .Pred Operand => 1 + Operand.size
  | .IsZero Operand => 1 + Operand.size

/-- Pre-order token sequence of a term, as the rendering claim words it: `True`,
`False`, `Zero` give `true`, `false`, `0`; `Succ`, `Pred`, `IsZero` give their
keyword followed by the tokens of the operand; `If` gives `if`, the tokens of
the condition, `then`, the tokens of the first branch, `else`, the tokens of
the second branch.  Specification side, to be compared with `Term.Format`. -/
def Term.tokens : Term → List String
  | .True => ["true"]
  | .False => ["false"]
  | .Zero => ["0"]
  | .If Cond Then Else =>
    ["if"] ++ Cond.tokens ++ ["then"] ++ Then.tokens ++ ["else"] ++ Else.tokens
  | .Succ Operand => ["succ"] ++ Operand.tokens
  | .Pred Operand => ["pred"] ++ Operand.tokens
  | .IsZero Operand => ["iszero"] ++ Operand.tokens

/-- Shape of a rendering, as the rendering claim words it: the character list is
not empty, does not start or end with a space, has no two consecutive spaces,
and has no parenthesis. -/
def Rendered (l : List Char) : Prop :=
  l ≠ [] ∧ l.head? ≠ some ' ' ∧ l.getLast? ≠ some ' ' ∧
    List.Chain' (fun a b => ¬(a = ' ' ∧ b = ' ')) l ∧ '(' ∉ l ∧ ')' ∉ l

instance Rendered.decidable (l : List Char) : Decidable (Rendered l) := by
  unfold Rendered
  infer_instance

/-! ## Helper lemmas -/

/-- A conditional whose condition is neither `True` nor `False` takes the
`default` branch of the type switch. -/
theorem Term.Evaluate_If_default (c a b : Term) (h1 : c ≠ .True) (h2 : c ≠ .False) :
    (Term.If c a b).Evaluate =
      match c.Evaluate with
      | .error err => .error err
      | .ok evaluated => .ok (.If evaluated a b) := by
  cases c <;> simp_all [Term.Evaluate]

/-- A `Succ` whose operand is numeric returns itself with a nil error. -/
theorem Term.Evaluate_Succ_numeric (op : Term) (h : op.isNumeric = true) :
    (Term.Succ op).Evaluate = .ok (.Succ op) := by
  simp [Term.Evaluate, Term.isValue, Term.isNumeric, h]

/-- A `Succ` whose operand is not numeric steps its operand. -/
theorem Term.Evaluate_Succ_not_numeric (op : Term) (h : op.isNumeric = false) :
    (Term.Succ op).Evaluate =
      match op.Evaluate with
      | .error err => .error err
      | .ok evaluated => .ok (.Succ evaluated) := by
  simp [Term.Evaluate, Term.isValue, Term.isNumeric, h]

/-- The loop never leaves a `Succ` whose operand is numeric: every amount of
fuel runs out. -/
theorem MultiStepTerm.loop_Succ_numeric (op : Term) (h : op.isNumeric = true) (fuel : Nat) :
    MultiStepTerm.loop fuel (.Succ op) = none := by
  induction fuel with
  | zero => rfl
  | succ n ih => simp [MultiStepTerm.loop, Term.Evaluate_Succ_numeric op h, ih]

/-- More fuel does not change an answer of the loop. -/
theorem MultiStepTerm.loop_mono (fuel k : Nat) (t : Term)
    (r : Option Term × Option Error) (h : MultiStepTerm.loop fuel t = some r) :
    MultiStepTerm.loop (fuel + k) t = some r := by
  induction fuel generalizing t with
  | zero => simp [MultiStepTerm.loop] at h
  | succ n ih =>
    rw [Nat.add_right_comm]
    simp only [MultiStepTerm.loop] at h ⊢
    cases hev : t.Evaluate with
    | error err => simpa [hev] using h
    | ok next =>
      rw [hev] at h
      exact ih next h

/-- Operand shapes on which the type switches of `Pred.Evaluate` and
`IsZero.Evaluate` reach their `default` branch: every struct but `Zero` and
`Succ`. -/
theorem Term.Evaluate_Pred_default (op : Term) (h1 : op ≠ .Zero)
    (h2 : ∀ x, op ≠ .Succ x) :
    (Term.Pred op).Evaluate =
      match op.Evaluate with
      | .error err => .error err
      | .ok evaluated => .ok (.Pred evaluated) := by
  cases op <;> simp_all [Term.Evaluate]

/-- The `default` branch of `IsZero.Evaluate`. -/
theorem Term.Evaluate_IsZero_default (op : Term) (h1 : op ≠ .Zero)
    (h2 : ∀ x, op ≠ .Succ x) :
    (Term.IsZero op).Evaluate =
      match op.Evaluate with
      | .error err => .error err
      | .ok evaluated => .ok (.IsZero evaluated) := by
  cases op <;> simp_all [Term.Evaluate]

/-! ## Claims about the multi-step driver -/

/-- Claim C1, evaluated on the code at the origin `IsZero(Zero)`: the first step
gives `True`, the step on `True` signals `ErrCannotEvaluate`, and the driver
then returns the pair `(nil, nil)` for every positive amount of fuel; the term
`True` is not returned. -/
theorem C1_MultiStep_IsZero_Zero_returns_nil :
    (Term.IsZero .Zero).Evaluate = .ok .True ∧
    Term.True.Evaluate = .error .ErrCannotEvaluate ∧
    (∀ fuel, MultiStepTerm.Evaluate (fuel + 1) ⟨.IsZero .Zero⟩ = some (none, none)) ∧
    (∀ fuel, MultiStepTerm.Evaluate fuel ⟨.IsZero .Zero⟩ ≠ some (some .True, none)) := by
  refine ⟨rfl, rfl, fun fuel => rfl, fun fuel => ?_⟩
  cases fuel with
  | zero => simp [MultiStepTerm.Evaluate, MultiStepTerm.loop, Term.Evaluate]
  | succ n =>
    simp [MultiStepTerm.Evaluate, MultiStepTerm.loop, Term.Evaluate, Error.isCannotEvaluate]

/-- Claim C2, evaluated on the code at the origins `True`, `IsZero(True)` and
`If(Zero, True, False)`: the single step signals `ErrCannotEvaluate` and the
driver returns `(nil, ErrCannotEvaluate)`, whatever the fuel; it does not
return the origin with a nil error. -/
theorem C2_MultiStep_normal_form_returns_error :
    (∀ fuel, MultiStepTerm.Evaluate fuel ⟨.True⟩ = some (none, some .ErrCannotEvaluate)) ∧
    (∀ fuel, MultiStepTerm.Evaluate fuel ⟨.IsZero .True⟩
      = some (none, some .ErrCannotEvaluate)) ∧
    (∀ fuel, MultiStepTerm.Evaluate fuel ⟨.If .Zero .True .False⟩
      = some (none, some .ErrCannotEvaluate)) :=
  ⟨fun _ => rfl, fun _ => rfl, fun _ => rfl⟩

/-- Claim C3, evaluated on the code at the well-typed origin `Succ(Pred(Zero))`
of size 3: the first step gives `Succ(Zero)`, a value, which `Succ.Evaluate`
returns as its own reduct with a nil error, so the loop of the driver never
ends: no amount of fuel produces a result. -/
theorem C3_MultiStep_Succ_Pred_Zero_diverges :
    (Term.Succ (.Pred .Zero)).typeOf = some .Nat ∧
    (Term.Succ (.Pred .Zero)).size = 3 ∧
    (Term.Succ (.Pred .Zero)).Evaluate = .ok (.Succ .Zero) ∧
    (Term.Succ .Zero).isValue = true ∧
    (Term.Succ .Zero).Evaluate = .ok (.Succ .Zero) ∧
    (∀ fuel, MultiStepTerm.Evaluate fuel ⟨.Succ (.Pred .Zero)⟩ = none) := by
  refine ⟨rfl, rfl, rfl, rfl, rfl, fun fuel => ?_⟩
  have h : (Term.Succ (.Pred .Zero)).Evaluate = .ok (.Succ .Zero) := rfl
  simp only [MultiStepTerm.Evaluate, h]
  exact MultiStepTerm.loop_Succ_numeric .Zero rfl fuel

/-! ## Claims about the single step -/

/-- Claim C4, evaluated on the code: the values `True`, `False` and `Zero`
signal `ErrCannotEvaluate`, but the value `Succ(Zero)` returns itself as its
reduct with a nil error. -/
theorem C4_Succ_value_returns_itself :
    Term.True.Evaluate = .error .ErrCannotEvaluate ∧
    Term.False.Evaluate = .error .ErrCannotEvaluate ∧
    Term.Zero.Evaluate = .error .ErrCannotEvaluate ∧
    (Term.Succ .Zero).isValue = true ∧
    (Term.Succ .Zero).Evaluate = .ok (.Succ .Zero) :=
  ⟨rfl, rfl, rfl, rfl, rfl⟩

/-- Claim C5: `If(True, a, b)` steps to `a`; `If(False, a, b)` steps to `b`;
when `c` is neither `True` nor `False`, `If(c, a, b)` steps to `If(c', a, b)`
if `c` steps to `c'`, and fails with the error of `c` if `c` fails.  The
conditional `If(IsZero(Zero), Succ(Zero), Zero)` steps to
`If(True, Succ(Zero), Zero)`, which steps to `Succ(Zero)`. -/
theorem C5_If_Evaluate (c a b : Term) :
    (Term.If .True a b).Evaluate = .ok a ∧
    (Term.If .False a b).Evaluate = .ok b ∧
    (c ≠ .True → c ≠ .False →
      (∀ c', c.Evaluate = .ok c' → (Term.If c a b).Evaluate = .ok (.If c' a b)) ∧
      (∀ err, c.Evaluate = .error err → (Term.If c a b).Evaluate = .error err)) ∧
    (Term.If (.IsZero .Zero) (.Succ .Zero) .Zero).Evaluate
      = .ok (.If .True (.Succ .Zero) .Zero) ∧
    (Term.If .True (.Succ .Zero) .Zero).Evaluate = .ok (.Succ .Zero) := by
  refine ⟨rfl, rfl, fun h1 h2 => ⟨fun c' hc => ?_, fun err hc => ?_⟩, rfl, rfl⟩
  · rw [Term.Evaluate_If_default c a b h1 h2, hc]
  · rw [Term.Evaluate_If_default c a b h1 h2, hc]

/-- Claim C5 at `c = IsZero(Zero)` (which steps) and at `c = Zero` (which
fails), with `a = Succ(Zero)` and `b = Zero`. -/
theorem C5_If_Evaluate_witness :
    (Term.If (.IsZero .Zero) (.Succ .Zero) .Zero).Evaluate
      = .ok (.If .True (.Succ .Zero) .Zero) ∧
    (Term.If .Zero (.Succ .Zero) .Zero).Evaluate = .error .ErrCannotEvaluate :=
  ⟨((C5_If_Evaluate (.IsZero .Zero) (.Succ .Zero) .Zero).2.2.1
      (by decide) (by decide)).1 .True rfl,
   ((C5_If_Evaluate .Zero (.Succ .Zero) .Zero).2.2.1
      (by decide) (by decide)).2 .ErrCannotEvaluate rfl⟩

/-- Claim C6: `Pred(Zero)` steps to `Zero`, and `Pred(Succ(inner))` steps to
exactly `inner` when `inner` is numeric; `Pred(Succ(Succ(Zero)))` steps to
`Succ(Zero)`. -/
theorem C6_Pred_Evaluate_direct (inner : Term) (h : inner.isNumeric = true) :
    (Term.Pred .Zero).Evaluate = .ok .Zero ∧
    (Term.Pred (.Succ inner)).Evaluate = .ok inner ∧
    (Term.Pred (.Succ (.Succ .Zero))).Evaluate = .ok (.Succ .Zero) := by
  refine ⟨rfl, ?_, rfl⟩
  simp [Term.Evaluate, Term.isNumeric, h]

/-- Claim C6 at `inner = Succ(Zero)`. -/
theorem C6_Pred_Evaluate_direct_witness :
    (Term.Succ .Zero).isNumeric = true ∧
    (Term.Pred (.Succ (.Succ .Zero))).Evaluate = .ok (.Succ .Zero) :=
  ⟨rfl, (C6_Pred_Evaluate_direct (.Succ .Zero) rfl).2.1⟩

/-- Claim C7, evaluated on the code at `op = Succ(Pred(Zero))`: the operand is a
`Succ` whose own operand is not numeric and it steps to `Succ(Zero)`, but
`Pred(op)` signals `ErrCannotEvaluate` instead of stepping to
`Pred(Succ(Zero))`. -/
theorem C7_Pred_Succ_not_numeric_stuck :
    (Term.Pred .Zero).isNumeric = false ∧
    (Term.Succ (.Pred .Zero)).Evaluate = .ok (.Succ .Zero) ∧
    (Term.Pred (.Succ (.Pred .Zero))).Evaluate = .error .ErrCannotEvaluate :=
  ⟨rfl, rfl, rfl⟩

/-- Claim C8: `IsZero(Zero)` steps to `True`, and `IsZero(Succ(inner))` steps to
`False` when `inner` is numeric. -/
theorem C8_IsZero_Evaluate_direct (inner : Term) (h : inner.isNumeric = true) :
    (Term.IsZero .Zero).Evaluate = .ok .True ∧
    (Term.IsZero (.Succ inner)).Evaluate = .ok .False := by
  refine ⟨rfl, ?_⟩
  simp [Term.Evaluate, Term.isNumeric, h]

/-- Claim C8 at `inner = Succ(Zero)`. -/
theorem C8_IsZero_Evaluate_direct_witness :
    (Term.Succ .Zero).isNumeric = true ∧
    (Term.IsZero (.Succ (.Succ .Zero))).Evaluate = .ok .False :=
  ⟨rfl, (C8_IsZero_Evaluate_direct (.Succ .Zero) rfl).2⟩

/-- Claim C9, evaluated on the code at `op = Succ(Pred(Zero))`: the operand steps
to `Succ(Zero)`, but `IsZero(op)` signals `ErrCannotEvaluate` instead of
stepping to `IsZero(Succ(Zero))`. -/
theorem C9_IsZero_Succ_not_numeric_stuck :
    (Term.Pred .Zero).isNumeric = false ∧
    (Term.Succ (.Pred .Zero)).Evaluate = .ok (.Succ .Zero) ∧
    (Term.IsZero (.Succ (.Pred .Zero))).Evaluate = .error .ErrCannotEvaluate :=
  ⟨rfl, rfl, rfl⟩

/-- Claim C10: when `op` is not numeric, `Succ(op)` steps to `Succ(op')` if `op`
steps to `op'`, and fails with the same error if `op` fails;
`Succ(Pred(Zero))` steps to `Succ(Zero)`. -/
theorem C10_Succ_Evaluate_operand (op : Term) (h : op.isNumeric = false) :
    (∀ op', op.Evaluate = .ok op' → (Term.Succ op).Evaluate = .ok (.Succ op')) ∧
    (∀ err, op.Evaluate = .error err → (Term.Succ op).Evaluate = .error err) ∧
    (Term.Succ (.Pred .Zero)).Evaluate = .ok (.Succ .Zero) := by
  refine ⟨fun op' hop => ?_, fun err hop => ?_, rfl⟩
  · rw [Term.Evaluate_Succ_not_numeric op h, hop]
  · rw [Term.Evaluate_Succ_not_numeric op h, hop]

/-- Claim C10 at `op = Pred(Zero)` (which steps to `Zero`) and at `op = True`
(which fails). -/
theorem C10_Succ_Evaluate_operand_witness :
    (Term.Pred .Zero).isNumeric = false ∧
    (Term.Succ (.Pred .Zero)).Evaluate = .ok (.Succ .Zero) ∧
    (Term.Succ .True).Evaluate = .error .ErrCannotEvaluate :=
  ⟨rfl, (C10_Succ_Evaluate_operand (.Pred .Zero) rfl).1 .Zero rfl,
   (C10_Succ_Evaluate_operand .True rfl).2.1 .ErrCannotEvaluate rfl⟩

/-! ## Claims about repetition, classification and the wrapper -/

/-- Every answer of the loop carries a nil term, and its error is never
`ErrCannotEvaluate`. -/
theorem MultiStepTerm.loop_result (fuel : Nat) (t : Term)
    (r : Option Term × Option Error) (h : MultiStepTerm.loop fuel t = some r) :
    r.1 = none ∧ r.2 ≠ some .ErrCannotEvaluate := by
  induction fuel generalizing t with
  | zero => simp [MultiStepTerm.loop] at h
  | succ n ih =>
    simp only [MultiStepTerm.loop] at h
    cases hev : t.Evaluate with
    | ok next =>
      rw [hev] at h
      exact ih next h
    | error err =>
      rw [hev] at h
      cases err with
      | ErrCannotEvaluate =>
        simp [Error.isCannotEvaluate] at h
        subst h
        simp
      | other msg =>
        simp [Error.isCannotEvaluate] at h
        subst h
        simp

/-- Claim C11, evaluated on the code at the value `Succ(Zero)`: the single step
succeeds and its reduct is `Succ(Zero)` again, so the term is reached from
itself in one step; in the driver, started on `Succ(Pred(Zero))`, the current
term is `Succ(Zero)` after the first step and stays `Succ(Zero)` at every
iteration, so the loop never ends. -/
theorem C11_Succ_Zero_steps_to_itself :
    (Term.Succ .Zero).Evaluate = .ok (.Succ .Zero) ∧
    (Term.Succ (.Succ .Zero)).Evaluate = .ok (.Succ (.Succ .Zero)) ∧
    (Term.Succ (.Pred .Zero)).Evaluate = .ok (.Succ .Zero) ∧
    (∀ fuel, MultiStepTerm.loop fuel (.Succ .Zero) = none) :=
  ⟨rfl, rfl, rfl, fun fuel => MultiStepTerm.loop_Succ_numeric .Zero rfl fuel⟩

/-- Claim C12: `isNumeric(t)` holds exactly when `t` is `Succ` applied `n` times
to `Zero` for some `n`; `isValue(t)` holds exactly when `t` is `True`, `False`
or numeric; `isValue` is false on every `If`, `Pred` and `IsZero`. -/
theorem C12_isNumeric_isValue_characterised (t : Term) :
    (t.isNumeric = true ↔ ∃ n : Nat, t = Term.Succ^[n] .Zero) ∧
    (t.isValue = true ↔ t = .True ∨ t = .False ∨ t.isNumeric = true) ∧
    (∀ c a b, (Term.If c a b).isValue = false) ∧
    (∀ x, (Term.Pred x).isValue = false) ∧
    (∀ x, (Term.IsZero x).isValue = false) := by
  refine ⟨⟨fun h => ?_, fun h => ?_⟩, ?_, fun _ _ _ => rfl, fun _ => rfl, fun _ => rfl⟩
  · induction t with
    | Zero => exact ⟨0, rfl⟩
    | Succ op ih =>
      obtain ⟨n, hn⟩ := ih h
      exact ⟨n + 1, by rw [Function.iterate_succ_apply', ← hn]⟩
    | True => simp [Term.isNumeric] at h
    | False => simp [Term.isNumeric] at h
    | If c a b _ _ _ => simp [Term.isNumeric] at h
    | Pred op _ => simp [Term.isNumeric] at h
    | IsZero op _ => simp [Term.isNumeric] at h
  · obtain ⟨n, hn⟩ := h
    subst hn
    induction n with
    | zero => rfl
    | succ k ih =>
      rw [Function.iterate_succ_apply']
      simpa [Term.isNumeric] using ih
  · cases t <;> simp [Term.isValue, Term.isNumeric]

/-- Claim C13: a numeric term is a value, and the converse fails at `True` and
at `False`, which are values and not numeric. -/
theorem C13_isNumeric_implies_isValue :
    (∀ t : Term, t.isNumeric = true → t.isValue = true) ∧
    (Term.True.isValue = true ∧ Term.True.isNumeric = false) ∧
    (Term.False.isValue = true ∧ Term.False.isNumeric = false) := by
  refine ⟨fun t h => ?_, ⟨rfl, rfl⟩, ⟨rfl, rfl⟩⟩
  cases t <;> simp_all [Term.isValue, Term.isNumeric]

/-- Claim C13 at the numeric term `Succ(Succ(Zero))`. -/
theorem C13_isNumeric_implies_isValue_witness :
    (Term.Succ (.Succ .Zero)).isNumeric = true ∧
    (Term.Succ (.Succ .Zero)).isValue = true :=
  ⟨rfl, C13_isNumeric_implies_isValue.1 (.Succ (.Succ .Zero)) rfl⟩

/-- Claim C15: the wrapper renders and classifies its origin term: `Format`,
`isValue` and `isNumeric` of `MultiStepTerm{Origin: t}` are those of `t`.  For
`t = IsZero(Zero)` the wrapper renders `iszero 0` and is not a value, although
`t` steps to `True`. -/
theorem C15_MultiStep_delegates_to_origin (t : Term) :
    MultiStepTerm.Format ⟨t⟩ = t.Format ∧
    MultiStepTerm.isValue ⟨t⟩ = t.isValue ∧
    MultiStepTerm.isNumeric ⟨t⟩ = t.isNumeric ∧
    MultiStepTerm.Format ⟨.IsZero .Zero⟩ = "iszero 0" ∧
    MultiStepTerm.isValue ⟨.IsZero .Zero⟩ = false ∧
    (Term.IsZero .Zero).Evaluate = .ok .True :=
  ⟨rfl, rfl, rfl, by decide, rfl, rfl⟩

/-- Claim C16: whenever the driver returns with a nil error, the term it
returns is nil; and a returned error is `ErrCannotEvaluate` exactly when the
first single step on the origin signals `ErrCannotEvaluate`, in which case the
driver does return, with `(nil, ErrCannotEvaluate)`, whatever the fuel. -/
theorem C16_MultiStep_returns_nil_term (t : Term) :
    (∀ fuel r, MultiStepTerm.Evaluate fuel ⟨t⟩ = some r → r.2 = none → r.1 = none) ∧
    (∀ fuel r, MultiStepTerm.Evaluate fuel ⟨t⟩ = some r →
      (r.2 = some .ErrCannotEvaluate ↔ t.Evaluate = .error .ErrCannotEvaluate)) ∧
    (t.Evaluate = .error .ErrCannotEvaluate →
      ∀ fuel, MultiStepTerm.Evaluate fuel ⟨t⟩ = some (none, some .ErrCannotEvaluate)) := by
  refine ⟨fun fuel r h _ => ?_, fun fuel r h => ?_, fun h fuel => ?_⟩
  · simp only [MultiStepTerm.Evaluate] at h
    cases hev : t.Evaluate with
    | ok current =>
      rw [hev] at h
      exact (MultiStepTerm.loop_result fuel current r h).1
    | error err =>
      rw [hev] at h
      simp at h
      subst h
      rfl
  · simp only [MultiStepTerm.Evaluate] at h
    cases hev : t.Evaluate with
    | ok current =>
      rw [hev] at h
      have h2 := (MultiStepTerm.loop_result fuel current r h).2
      simp [h2]
    | error err =>
      rw [hev] at h
      simp at h
      subst h
      simp
  · simp [MultiStepTerm.Evaluate, h]

/-- Claim C16 at the origin `IsZero(Zero)` with fuel 1, where the driver returns
`(nil, nil)`, and at the origin `True`, whose first step signals
`ErrCannotEvaluate`. -/
theorem C16_MultiStep_returns_nil_term_witness :
    MultiStepTerm.Evaluate 1 ⟨.IsZero .Zero⟩ = some (none, none) ∧
    (none, (none : Option Error)).1 = (none : Option Term) ∧
    MultiStepTerm.Evaluate 0 ⟨.True⟩ = some (none, some .ErrCannotEvaluate) :=
  ⟨rfl, (C16_MultiStep_returns_nil_term (.IsZero .Zero)).1 1 (none, none) rfl rfl,
   (C16_MultiStep_returns_nil_term .True).2.2 rfl 0⟩

/-- Claim C17, evaluated on the code at `Pred(Succ(Pred(Zero)))`: the term is
well-typed (`Nat`) and is not a value, yet its single step signals
`ErrCannotEvaluate`; likewise `IsZero(Succ(Pred(Zero)))`, well-typed (`Bool`). -/
theorem C17_well_typed_non_value_stuck :
    (Term.Pred (.Succ (.Pred .Zero))).typeOf = some .Nat ∧
    (Term.Pred (.Succ (.Pred .Zero))).isValue = false ∧
    (Term.Pred (.Succ (.Pred .Zero))).Evaluate = .error .ErrCannotEvaluate ∧
    (Term.IsZero (.Succ (.Pred .Zero))).typeOf = some .Bool ∧
    (Term.IsZero (.Succ (.Pred .Zero))).isValue = false ∧
    (Term.IsZero (.Succ (.Pred .Zero))).Evaluate = .error .ErrCannotEvaluate :=
  ⟨rfl, rfl, rfl, rfl, rfl, rfl⟩

/-! ## Typing -/

/-- Typing of a `Succ`, inverted. -/
theorem Term.typeOf_Succ_iff (op : Term) (T : Ty) :
    (Term.Succ op).typeOf = some T ↔ op.typeOf = some .Nat ∧ T = .Nat := by
  cases h : op.typeOf with
  | none => simp [Term.typeOf, h]
  | some ty => cases ty <;> simp [Term.typeOf, h, eq_comm]

/-- Typing of a `Pred`, inverted. -/
theorem Term.typeOf_Pred_iff (op : Term) (T : Ty) :
    (Term.Pred op).typeOf = some T ↔ op.typeOf = some .Nat ∧ T = .Nat := by
  cases h : op.typeOf with
  | none => simp [Term.typeOf, h]
  | some ty => cases ty <;> simp [Term.typeOf, h, eq_comm]

/-- Typing of an `IsZero`, inverted. -/
theorem Term.typeOf_IsZero_iff (op : Term) (T : Ty) :
    (Term.IsZero op).typeOf = some T ↔ op.typeOf = some .Nat ∧ T = .Bool := by
  cases h : op.typeOf with
  | none => simp [Term.typeOf, h]
  | some ty => cases ty <;> simp [Term.typeOf, h, eq_comm]

/-- Typing of an `If`, inverted. -/
theorem Term.typeOf_If_iff (c a b : Term) (T : Ty) :
    (Term.If c a b).typeOf = some T ↔
      c.typeOf = some .Bool ∧ a.typeOf = some T ∧ b.typeOf = some T := by
  cases hc : c.typeOf with
  | none => simp [Term.typeOf, hc]
  | some tc =>
    cases ha : a.typeOf with
    | none => cases tc <;> simp [Term.typeOf, hc, ha]
    | some ta =>
      cases hb : b.typeOf with
      | none => cases tc <;> simp [Term.typeOf, hc, ha, hb]
      | some tb =>
        cases tc <;> cases ta <;> cases tb <;> cases T <;> simp [Term.typeOf, hc, ha, hb]

/-- Claim C18 (preservation): if `t` is well-typed with type `T` and the single
step on `t` succeeds with reduct `t1`, then `t1` is well-typed with type `T`. -/
theorem C18_preservation (t t1 : Term) (T : Ty)
    (hty : t.typeOf = some T) (hev : t.Evaluate = .ok t1) : t1.typeOf = some T := by
  induction t generalizing t1 T with
  | True => simp [Term.Evaluate] at hev
  | False => simp [Term.Evaluate] at hev
  | Zero => simp [Term.Evaluate] at hev
  | If c a b ihc _ _ =>
    rw [Term.typeOf_If_iff] at hty
    obtain ⟨hc, ha, hb⟩ := hty
    by_cases h1 : c = .True
    · subst h1
      simp [Term.Evaluate] at hev
      subst hev
      exact ha
    by_cases h2 : c = .False
    · subst h2
      simp [Term.Evaluate] at hev
      subst hev
      exact hb
    rw [Term.Evaluate_If_default c a b h1 h2] at hev
    cases hce : c.Evaluate with
    | error err => simp [hce] at hev
    | ok c1 =>
      simp [hce] at hev
      subst hev
      rw [Term.typeOf_If_iff]
      exact ⟨ihc c1 .Bool hc hce, ha, hb⟩
  | Succ op ih =>
    rw [Term.typeOf_Succ_iff] at hty
    obtain ⟨hop, hT⟩ := hty
    subst hT
    cases hnum : op.isNumeric with
    | true =>
      rw [Term.Evaluate_Succ_numeric op hnum] at hev
      simp at hev
      subst hev
      rw [Term.typeOf_Succ_iff]
      exact ⟨hop, rfl⟩
    | false =>
      rw [Term.Evaluate_Succ_not_numeric op hnum] at hev
      cases hoe : op.Evaluate with
      | error err => simp [hoe] at hev
      | ok op1 =>
        simp [hoe] at hev
        subst hev
        rw [Term.typeOf_Succ_iff]
        exact ⟨ih op1 .Nat hop hoe, rfl⟩
  | Pred op ih =>
    rw [Term.typeOf_Pred_iff] at hty
    obtain ⟨hop, hT⟩ := hty
    subst hT
    by_cases h1 : op = .Zero
    · subst h1
      simp [Term.Evaluate] at hev
      subst hev
      rfl
    by_cases h2 : ∃ x, op = .Succ x
    · obtain ⟨x, hx⟩ := h2
      subst hx
      rw [Term.typeOf_Succ_iff] at hop
      simp only [Term.Evaluate] at hev
      split at hev
      · simp at hev
        subst hev
        exact hop.1
      · simp at hev
    rw [Term.Evaluate_Pred_default op h1 (fun x hx => h2 ⟨x, hx⟩)] at hev
    cases hoe : op.Evaluate with
    | error err => simp [hoe] at hev
    | ok op1 =>
      simp [hoe] at hev
      subst hev
      rw [Term.typeOf_Pred_iff]
      exact ⟨ih op1 .Nat hop hoe, rfl⟩
  | IsZero op ih =>
    rw [Term.typeOf_IsZero_iff] at hty
    obtain ⟨hop, hT⟩ := hty
    subst hT
    by_cases h1 : op = .Zero
    · subst h1
      simp [Term.Evaluate] at hev
      subst hev
      rfl
    by_cases h2 : ∃ x, op = .Succ x
    · obtain ⟨x, hx⟩ := h2
      subst hx
      simp only [Term.Evaluate] at hev
      split at hev
      · simp at hev
        subst hev
        rfl
      · simp at hev
    rw [Term.Evaluate_IsZero_default op h1 (fun x hx => h2 ⟨x, hx⟩)] at hev
    cases hoe : op.Evaluate with
    | error err => simp [hoe] at hev
    | ok op1 =>
      simp [hoe] at hev
      subst hev
      rw [Term.typeOf_IsZero_iff]
      exact ⟨ih op1 .Nat hop hoe, rfl⟩

/-- Claim C18 at `t = If(IsZero(Zero), Succ(Zero), Zero)` of type `Nat`, which
steps to `If(True, Succ(Zero), Zero)`. -/
theorem C18_preservation_witness :
    (Term.If (.IsZero .Zero) (.Succ .Zero) .Zero).typeOf = some .Nat ∧
    (Term.If (.IsZero .Zero) (.Succ .Zero) .Zero).Evaluate
      = .ok (.If .True (.Succ .Zero) .Zero) ∧
    (Term.If .True (.Succ .Zero) .Zero).typeOf = some .Nat :=
  ⟨rfl, rfl, C18_preservation (.If (.IsZero .Zero) (.Succ .Zero) .Zero)
    (.If .True (.Succ .Zero) .Zero) .Nat rfl rfl⟩

/-! ## Rendering -/

/-- The accumulating loop of `String.intercalate` over an appended list. -/
theorem intercalate_go_append (acc s : String) (l1 l2 : List String) :
    String.intercalate.go acc s (l1 ++ l2)
      = String.intercalate.go (String.intercalate.go acc s l1) s l2 := by
  induction l1 generalizing acc with
  | nil => rfl
  | cons a as ih => simp [String.intercalate.go, ih]

/-- A prefix of the accumulator of `String.intercalate` stays in front. -/
theorem intercalate_go_acc (x acc s : String) (l : List String) :
    String.intercalate.go (x ++ acc) s l = x ++ String.intercalate.go acc s l := by
  induction l generalizing acc with
  | nil => rfl
  | cons a as ih =>
    simp only [String.intercalate.go]
    rw [String.append_assoc, String.append_assoc, ← String.append_assoc acc, ih]

/-- Joining an appended list joins both parts with one separator between. -/
theorem intercalate_append (s : String) (l1 l2 : List String)
    (h1 : l1 ≠ []) (h2 : l2 ≠ []) :
    s.intercalate (l1 ++ l2) = s.intercalate l1 ++ s ++ s.intercalate l2 := by
  cases l1 with
  | nil => exact absurd rfl h1
  | cons a as =>
    cases l2 with
    | nil => exact absurd rfl h2
    | cons b bs =>
      simp only [List.cons_append, String.intercalate]
      rw [intercalate_go_append]
      simp only [String.intercalate.go]
      rw [intercalate_go_acc]

/-- Every term has at least one token. -/
theorem Term.tokens_ne_nil (t : Term) : t.tokens ≠ [] := by
  cases t <;> simp [Term.tokens]

/-- The rendering is the token sequence joined by single spaces. -/
theorem Term.Format_eq_intercalate (t : Term) : t.Format = " ".intercalate t.tokens := by
  induction t with
  | True => rfl
  | False => rfl
  | Zero => rfl
  | If c a b ihc iha ihb =>
    simp only [Term.Format, Term.tokens]
    rw [intercalate_append _ _ _ (by simp) b.tokens_ne_nil,
      intercalate_append _ _ _ (by simp) (by simp),
      intercalate_append _ _ _ (by simp) a.tokens_ne_nil,
      intercalate_append _ _ _ (by simp) (by simp),
      intercalate_append _ _ _ (by simp) c.tokens_ne_nil, ← ihc, ← iha, ← ihb]
    apply String.ext
    simp [String.data_append, String.intercalate, String.intercalate.go]
  | Succ op ih =>
    simp only [Term.Format, Term.tokens]
    rw [intercalate_append _ _ _ (by simp) op.tokens_ne_nil, ← ih]
    rfl
  | Pred op ih =>
    simp only [Term.Format, Term.tokens]
    rw [intercalate_append _ _ _ (by simp) op.tokens_ne_nil, ← ih]
    rfl
  | IsZero op ih =>
    simp only [Term.Format, Term.tokens]
    rw [intercalate_append _ _ _ (by simp) op.tokens_ne_nil, ← ih]
    rfl

/-- Two well-shaped renderings joined by one space are well-shaped. -/
theorem Rendered.sep {l1 l2 : List Char} (h1 : Rendered l1) (h2 : Rendered l2) :
    Rendered (l1 ++ ' ' :: l2) := by
  obtain ⟨n1, hd1, lt1, c1, p1, q1⟩ := h1
  obtain ⟨n2, hd2, lt2, c2, p2, q2⟩ := h2
  cases l1 with
  | nil => exact absurd rfl n1
  | cons x xs =>
    cases l2 with
    | nil => exact absurd rfl n2
    | cons y ys =>
      refine ⟨by simp, by simpa using hd1, ?_, ?_, ?_, ?_⟩
      · rw [List.getLast?_append]
        simpa [List.getLast?_cons_cons] using lt2
      · rw [List.chain'_append]
        refine ⟨c1, ?_, ?_⟩
        · rw [List.chain'_cons]
          refine ⟨?_, c2⟩
          simp at hd2
          simp [hd2]
        · intro a ha b hb
          simp at hb
          subst hb
          intro ⟨hax, _⟩
          subst hax
          exact lt1 ha
      · simp at p1 p2 ⊢
        tauto
      · simp at q1 q2 ⊢
        tauto

/-- Every rendering is well-shaped. -/
theorem Term.Format_rendered (t : Term) : Rendered t.Format.data := by
  induction t with
  | True => simp [Rendered, Term.Format]
  | False => simp [Rendered, Term.Format]
  | Zero => simp [Rendered, Term.Format]
  | If c a b ihc iha ihb =>
    have h := Rendered.sep (show Rendered "if".data by simp [Rendered])
      (Rendered.sep ihc (Rendered.sep (show Rendered "then".data by simp [Rendered])
        (Rendered.sep iha (Rendered.sep (show Rendered "else".data by simp [Rendered])
          ihb))))
    simpa [Term.Format, String.data_append] using h
  | Succ op ih =>
    have h := Rendered.sep (show Rendered "succ".data by simp [Rendered]) ih
    simpa [Term.Format, String.data_append] using h
  | Pred op ih =>
    have h := Rendered.sep (show Rendered "pred".data by simp [Rendered]) ih
    simpa [Term.Format, String.data_append] using h
  | IsZero op ih =>
    have h := Rendered.sep (show Rendered "iszero".data by simp [Rendered]) ih
    simpa [Term.Format, String.data_append] using h

/-- A well-shaped rendering does not contain two spaces in a row. -/
theorem Rendered.no_double_space {l : List Char} (h : Rendered l) :
    ¬ ([' ', ' '] <:+: l) := by
  intro hin
  obtain ⟨p, q, hpq⟩ := hin
  have hc := h.2.2.2.1
  rw [← hpq] at hc
  have h1 := (List.chain'_append.1 hc).1
  have h2 := (List.chain'_append.1 h1).2.1
  simp at h2

/-- Renderings are prefix-free: a rendering followed by any characters
determines the term and the characters that follow. -/
theorem Term.Format_prefix_free (s t : Term) (r1 r2 : List Char)
    (h : s.Format.data ++ r1 = t.Format.data ++ r2) : s = t ∧ r1 = r2 := by
  induction s generalizing t r1 r2 with
  | True => cases t <;> simp_all [Term.Format, String.data_append]
  | False => cases t <;> simp_all [Term.Format, String.data_append]
  | Zero => cases t <;> simp_all [Term.Format, String.data_append]
  | If c a b ihc iha ihb =>
    cases t with
    | If c1 a1 b1 =>
      simp only [Term.Format, String.data_append, List.append_assoc] at h
      have h0 : c.Format.data ++ (" then ".data ++ (a.Format.data ++ (" else ".data ++
          (b.Format.data ++ r1)))) = c1.Format.data ++ (" then ".data ++ (a1.Format.data ++
          (" else ".data ++ (b1.Format.data ++ r2)))) := by simpa using h
      obtain ⟨hc, h1⟩ := ihc _ _ _ h0
      have h1x : a.Format.data ++ (" else ".data ++ (b.Format.data ++ r1))
          = a1.Format.data ++ (" else ".data ++ (b1.Format.data ++ r2)) := by simpa using h1
      obtain ⟨ha, h2⟩ := iha _ _ _ h1x
      have h2x : b.Format.data ++ r1 = b1.Format.data ++ r2 := by simpa using h2
      obtain ⟨hb, h3⟩ := ihb _ _ _ h2x
      exact ⟨by rw [hc, ha, hb], h3⟩
    | True => simp [Term.Format, String.data_append] at h
    | False => simp [Term.Format, String.data_append] at h
    | Zero => simp [Term.Format, String.data_append] at h
    | Succ _ => simp [Term.Format, String.data_append] at h
    | Pred _ => simp [Term.Format, String.data_append] at h
    | IsZero _ => simp [Term.Format, String.data_append] at h
  | Succ op ih =>
    cases t with
    | Succ op1 =>
      have h0 : op.Format.data ++ r1 = op1.Format.data ++ r2 := by
        simpa [Term.Format, String.data_append] using h
      obtain ⟨ho, hr⟩ := ih _ _ _ h0
      exact ⟨by rw [ho], hr⟩
    | True => simp [Term.Format, String.data_append] at h
    | False => simp [Term.Format, String.data_append] at h
    | Zero => simp [Term.Format, String.data_append] at h
    | If _ _ _ => simp [Term.Format, String.data_append] at h
    | Pred _ => simp [Term.Format, String.data_append] at h
    | IsZero _ => simp [Term.Format, String.data_append] at h
  | Pred op ih =>
    cases t with
    | Pred op1 =>
      have h0 : op.Format.data ++ r1 = op1.Format.data ++ r2 := by
        simpa [Term.Format, String.data_append] using h
      obtain ⟨ho, hr⟩ := ih _ _ _ h0
      exact ⟨by rw [ho], hr⟩
    | True => simp [Term.Format, String.data_append] at h
    | False => simp [Term.Format, String.data_append] at h
    | Zero => simp [Term.Format, String.data_append] at h
    | If _ _ _ => simp [Term.Format, String.data_append] at h
    | Succ _ => simp [Term.Format, String.data_append] at h
    | IsZero _ => simp [Term.Format, String.data_append] at h
  | IsZero op ih =>
    cases t with
    | IsZero op1 =>
      have h0 : op.Format.data ++ r1 = op1.Format.data ++ r2 := by
        simpa [Term.Format, String.data_append] using h
      obtain ⟨ho, hr⟩ := ih _ _ _ h0
      exact ⟨by rw [ho], hr⟩
    | True => simp [Term.Format, String.data_append] at h
    | False => simp [Term.Format, String.data_append] at h
    | Zero => simp [Term.Format, String.data_append] at h
    | If _ _ _ => simp [Term.Format, String.data_append] at h
    | Succ _ => simp [Term.Format, String.data_append] at h
    | Pred _ => simp [Term.Format, String.data_append] at h

/-- Claim C14: `Format(t)` is the pre-order token sequence of `t` joined by
single spaces; it has no parenthesis, no leading or trailing space and no two
consecutive spaces.  `Format(Succ(Zero))` is `succ 0` and
`Format(If(IsZero(Zero), Succ(Zero), Zero))` is `if iszero 0 then succ 0 else 0`. -/
theorem C14_Format_joined_tokens (t : Term) :
    t.Format = " ".intercalate t.tokens ∧
    '(' ∉ t.Format.data ∧ ')' ∉ t.Format.data ∧
    t.Format.data.head? ≠ some ' ' ∧
    t.Format.data.getLast? ≠ some ' ' ∧
    ¬ ([' ', ' '] <:+: t.Format.data) ∧
    (Term.Succ .Zero).Format = "succ 0" ∧
    (Term.If (.IsZero .Zero) (.Succ .Zero) .Zero).Format
      = "if iszero 0 then succ 0 else 0" := by
  have h := t.Format_rendered
  exact ⟨t.Format_eq_intercalate, h.2.2.2.2.1, h.2.2.2.2.2, h.2.1, h.2.2.1,
    h.no_double_space, by decide, by decide⟩

/-- Claim C19: `Format` is injective: terms with the same rendering are equal;
the nested conditionals `If(a, If(b, c, d), e)` and `If(a, b, If(c, d, e))`
never render to the same string. -/
theorem C19_Format_injective (s t : Term) (h : s.Format = t.Format) :
    s = t ∧
    ∀ a b c d e : Term,
      (Term.If a (.If b c d) e).Format ≠ (Term.If a b (.If c d e)).Format := by
  refine ⟨(Term.Format_prefix_free s t [] [] (by rw [h])).1, fun a b c d e heq => ?_⟩
  have hterm : Term.If a (.If b c d) e = Term.If a b (.If c d e) :=
    (Term.Format_prefix_free (.If a (.If b c d) e) (.If a b (.If c d e)) [] []
      (by rw [heq])).1
  injection hterm with _ hb _
  have hsize : (Term.If b c d).size = b.size := congrArg Term.size hb
  simp only [Term.size] at hsize
  omega

/-- Claim C19 at `s = t = If(IsZero(Zero), Succ(Zero), Zero)`. -/
theorem C19_Format_injective_witness :
    (Term.If (.IsZero .Zero) (.Succ .Zero) .Zero).Format
      = (Term.If (.IsZero .Zero) (.Succ .Zero) .Zero).Format ∧
    Term.If (.IsZero .Zero) (.Succ .Zero) .Zero
      = Term.If (.IsZero .Zero) (.Succ .Zero) .Zero :=
  ⟨rfl, (C19_Format_injective (.If (.IsZero .Zero) (.Succ .Zero) .Zero)
    (.If (.IsZero .Zero) (.Succ .Zero) .Zero) rfl).1⟩
